import Mathlib

/-!
Verification development for the volume-operation execution core of the
vSphere CSI driver fork (Task Registry, per-key Lock Registry,
backoff/retry utilities, and the idempotency store).

The Task Registry (`TaskMap`) is embedded from the implementation quoted
verbatim in the repository's own bug analysis
(`RACE_CONDITION_PROOF.md`, the Count bug report, `race_demo.go`,
`panic_demo.go`) and exercised by `pkg/common/cns-lib/volume/taskmap_test.go`.
Components whose implementation files are not part of this source tree
(the Lock Registry, the backoff helpers, the idempotency orchestration)
are modelled from the specification; each such definition carries a
`Modelled from the spec:` doc comment.
-/

namespace VSphereCSI

/-- Managed object reference identifying a backend task
(`types.ManagedObjectReference` with `Type` and `Value` fields, as used by
`taskmap_test.go`). -/
structure ManagedObjectReference where
  refType : String
  refValue : String
deriving DecidableEq, Repr

/-- Pending-task state stored in the Task Registry
(`TaskDetails` with `Reference` and `MarkedForRemoval`; the capacity-one
result conduit is irrelevant to the map-level claims and omitted). -/
structure TaskDetails where
  reference : ManagedObjectReference
  markedForRemoval : Bool
deriving DecidableEq, Repr

/-- The Task Registry's backing map `t.m`, modelled as an association list
with at most one binding per reference. -/
structure TaskMap where
  m : List (ManagedObjectReference × TaskDetails)
deriving DecidableEq, Repr

/-- `NewTaskMap()` returns a registry with an empty backing map. -/
def NewTaskMap : TaskMap := ⟨[]⟩

/-- Go map assignment `t.m[k] = v` on the association-list model:
replace the existing binding for `k` in place, or append a new one. -/
def upsertAssoc (k : ManagedObjectReference) (v : TaskDetails) :
    List (ManagedObjectReference × TaskDetails) →
    List (ManagedObjectReference × TaskDetails)
  | [] => [(k, v)]
  | (k₀, v₀) :: rest =>
    if k₀ = k then (k, v) :: rest else (k₀, v₀) :: upsertAssoc k v rest

/-- `Upsert(ref, details)`: `t.m[task] = details` under the write lock. -/
def TaskMap.Upsert (t : TaskMap) (k : ManagedObjectReference) (v : TaskDetails) : TaskMap :=
  ⟨upsertAssoc k v t.m⟩

/-- `Delete(ref)`: `delete(t.m, task)` under the write lock. -/
def TaskMap.Delete (t : TaskMap) (k : ManagedObjectReference) : TaskMap :=
  ⟨t.m.filter (fun p => decide (p.1 ≠ k))⟩

/-- `Get(ref) -> (task, found)`: map lookup under the read lock. -/
def TaskMap.Get (t : TaskMap) (k : ManagedObjectReference) : Option TaskDetails :=
  (t.m.find? (fun p => decide (p.1 = k))).map Prod.snd

/-- `GetAll() -> snapshot`: an independent copy of all stored values,
taken under the read lock. -/
def TaskMap.GetAll (t : TaskMap) : List TaskDetails :=
  t.m.map Prod.snd

/-- `Count() -> int`: `return len(t.m)` (the current implementation, quoted
in the repository's bug report, takes no lock around this read; the
functional value returned is the size of the backing map). -/
def TaskMap.Count (t : TaskMap) : Nat :=
  t.m.length

/-- One Task Registry operation, for sequencing claims over operation
histories. `Get`, `GetAll` and `Count` are pure reads. -/
inductive TaskOp
  | upsert (k : ManagedObjectReference) (v : TaskDetails)
  | del (k : ManagedObjectReference)
  | get (k : ManagedObjectReference)
  | getAll
  | count
deriving DecidableEq, Repr

/-- Effect of one operation on the registry state. -/
def applyTaskOp (t : TaskMap) : TaskOp → TaskMap
  | .upsert k v => t.Upsert k v
  | .del k => t.Delete k
  | .get _ => t
  | .getAll => t
  | .count => t

/-- Sequential application of a finite operation history. -/
def applyTaskOps (t : TaskMap) (ops : List TaskOp) : TaskMap :=
  ops.foldl applyTaskOp t

/-! ### Locking discipline of the five Task Registry methods

Each method is abstracted to its trace of primitive events on the shared
`sync.RWMutex` and backing map, transcribed from the implementation quoted
in the bug report and `RACE_CONDITION_PROOF.md`. -/

/-- A primitive event inside one Task Registry method: acquiring or
releasing the registry's reader/writer lock, or touching the backing map. -/
inductive MapMethodEvent
  | lockWrite
  | unlockWrite
  | lockRead
  | unlockRead
  | mapWrite
  | mapRead
deriving DecidableEq, Repr

/-- `Upsert`: `mu.Lock(); t.m[task] = details; mu.Unlock()`. -/
def upsertEvents : List MapMethodEvent := [.lockWrite, .mapWrite, .unlockWrite]

/-- `Delete`: `mu.Lock(); delete(t.m, task); mu.Unlock()`. -/
def deleteEvents : List MapMethodEvent := [.lockWrite, .mapWrite, .unlockWrite]

/-- `Get`: `mu.RLock(); read t.m[task]; mu.RUnlock()`. -/
def getEvents : List MapMethodEvent := [.lockRead, .mapRead, .unlockRead]

/-- `GetAll`: `mu.RLock(); copy t.m; mu.RUnlock()`. -/
def getAllEvents : List MapMethodEvent := [.lockRead, .mapRead, .unlockRead]

/-- `Count` as currently implemented: `return len(t.m)` with no lock
acquisition at all (quoted as the current code in the repository's
`RACE_CONDITION_PROOF.md` and bug report). -/
def countEvents : List MapMethodEvent := [.mapRead]

/-- `Count` as in the repository's proposed fix:
`mu.RLock(); defer mu.RUnlock(); return len(t.m)`. -/
def countFixedEvents : List MapMethodEvent := [.lockRead, .mapRead, .unlockRead]

/-- Lock protection in force at the moment a method touches the map. -/
inductive Protection
  | unlocked
  | readLocked
  | writeLocked
deriving DecidableEq, Repr

/-- Protection derived from the current read- and write-hold depths. -/
def protOf (r w : Nat) : Protection :=
  if 0 < w then .writeLocked else if 0 < r then .readLocked else .unlocked

/-- One access to the backing map, tagged with whether it mutates the map
and which lock the accessing method holds at that moment. -/
structure MapAccess where
  isWrite : Bool
  prot : Protection
deriving DecidableEq, Repr

/-- Scan a method's event trace, collecting its map accesses together with
the lock protection each one executes under. -/
def accessesAux : Nat → Nat → List MapMethodEvent → List MapAccess
  | _, _, [] => []
  | r, w, e :: es =>
    match e with
    | .lockWrite => accessesAux r (w + 1) es
    | .unlockWrite => accessesAux r (w - 1) es
    | .lockRead => accessesAux (r + 1) w es
    | .unlockRead => accessesAux (r - 1) w es
    | .mapWrite => ⟨true, protOf r w⟩ :: accessesAux r w es
    | .mapRead => ⟨false, protOf r w⟩ :: accessesAux r w es

/-- The map accesses performed by a method, with their protections. -/
def mapAccesses (tr : List MapMethodEvent) : List MapAccess :=
  accessesAux 0 0 tr

/-- `RWMutex` exclusion: two critical sections in distinct threads are
mutually excluded exactly when both hold the lock and at least one holds
it for writing (two read holds may overlap; an unlocked access overlaps
with anything). -/
def mutuallyExcluded (p q : Protection) : Bool :=
  decide (p ≠ .unlocked) && decide (q ≠ .unlocked)
    && (decide (p = .writeLocked) || decide (q = .writeLocked))

/-- Two map accesses from different threads race when at least one is a
mutation and the locks they hold do not exclude the two from overlapping:
this is exactly an unsynchronized access to the shared map. -/
def accessesRace (a b : MapAccess) : Bool :=
  (a.isWrite || b.isWrite) && !(mutuallyExcluded a.prot b.prot)

/-- Two methods running in different threads admit an unsynchronized
interleaving iff some map access of the one races with some map access of
the other. -/
def tracesRace (t u : List MapMethodEvent) : Bool :=
  (mapAccesses t).any (fun a => (mapAccesses u).any (fun b => accessesRace a b))

/-- A method reads/writes the map only while holding some lock. -/
def accessesAllLocked (tr : List MapMethodEvent) : Bool :=
  (mapAccesses tr).all (fun a => decide (a.prot ≠ .unlocked))

/-! ### Per-key Lock Registry (`VolumeLocks`)

The implementation file is not part of this source tree; only its test
suite (`volume_operation_lock_test.go`) is. The registry is modelled from
the spec. -/

/-- Format string for the busy signal, asserted verbatim by
`TestVolumeOperationAlreadyExistsFmt`. -/
def VolumeOperationAlreadyExistsFmt : String :=
  "An operation with the given Volume ID %s already exists"

/-- Modelled from the spec: the Lock Registry's bookkeeping of "who holds
which key" — presence of a VolumeKey signals "operation in progress",
absence signals "free" (implementation file `volume_operation_lock.go` is
absent from the tree). The set of held keys is modelled as a list. -/
structure VolumeLocks where
  locks : List String
deriving DecidableEq, Repr

/-- Modelled from the spec: a fresh registry holds no keys. -/
def NewVolumeLocks : VolumeLocks := ⟨[]⟩

/-- Modelled from the spec: `TryAcquire(key) -> bool` attempts to claim
exclusive ownership of `key`; returns false immediately (never blocks) if
already held, otherwise records the key as held and returns true. The
internal mutex that makes this test-and-set atomic is modelled by the
operation being a single step. -/
def VolumeLocks.TryAcquire (vl : VolumeLocks) (volumeID : String) : Bool × VolumeLocks :=
  if volumeID ∈ vl.locks then (false, vl) else (true, ⟨volumeID :: vl.locks⟩)

/-- Modelled from the spec: `Release(key)` relinquishes ownership;
releasing an unheld or unknown key is a no-op, never an error. -/
def VolumeLocks.Release (vl : VolumeLocks) (volumeID : String) : VolumeLocks :=
  ⟨vl.locks.filter (fun k => decide (k ≠ volumeID))⟩

/-- One Lock Registry operation, for sequencing claims over histories. -/
inductive LockOp
  | tryAcquire (k : String)
  | release (k : String)
deriving DecidableEq, Repr

/-- Effect of one operation on the Lock Registry state. -/
def applyLockOp (vl : VolumeLocks) : LockOp → VolumeLocks
  | .tryAcquire k => (vl.TryAcquire k).2
  | .release k => vl.Release k

/-- Sequential application of a finite operation history. -/
def applyLockOps (vl : VolumeLocks) (ops : List LockOp) : VolumeLocks :=
  ops.foldl applyLockOp vl

/-- The results of `n` consecutive `TryAcquire(k)` calls with no
intervening `Release`. -/
def repeatTryAcquire (vl : VolumeLocks) (k : String) : Nat → List Bool
  | 0 => []
  | n + 1 =>
    (vl.TryAcquire k).1 :: repeatTryAcquire (vl.TryAcquire k).2 k n

/-! ### Backoff/Retry utility

`ExponentialBackoff` and `RetryOnError` live in `pkg/syncer/storagepool/util.go`,
which is absent from the tree; only `util_test.go` is present. Both drivers
are modelled from the spec. The exponentially growing, capped sleep between
attempts affects only timing, never the returned value or the number of
invocations, so the delay schedule is not part of the model; the work
function is modelled as a function from the invocation index (0-based) to
the result of that invocation. -/

/-- Modelled from the spec: the bounded-retry driver
`ExponentialBackoff(task, baseDuration, maxBackoffDuration, multiplier, retries)`.
It repeatedly calls the unit of work returning `(done bool, err error)`:
it stops successfully the moment `done` is true; stops immediately with
`(false, err)` — without consuming remaining retries — the moment `err` is
non-nil; otherwise retries up to the retry budget, after which it returns
`(false, nil)`. `ExponentialBackoff task i r` runs with `r` invocations of
budget left, the next invocation having index `i`; it returns the driver's
result paired with the number of invocations actually performed. -/
def ExponentialBackoff (task : Nat → Bool × Option String) :
    Nat → Nat → (Bool × Option String) × Nat
  | _, 0 => ((false, none), 0)
  | i, r + 1 =>
    match task i with
    | (_, some e) => ((false, some e), 1)
    | (true, none) => ((true, none), 1)
    | (false, none) =>
      let rest := ExponentialBackoff task (i + 1) r
      (rest.1, rest.2 + 1)

/-- Modelled from the spec: the simpler retry driver
`RetryOnError(task, baseDuration, maxBackoffDuration, multiplier, maxRetries)`
for work returning only `error`, using the same exponential/cap schedule:
it retries while the error is non-nil, returns success (nil) once the unit
of work returns nil, and surfaces the last error if the retry budget is
exhausted. `RetryOnError task i r last` runs with `r` invocations of budget
left, next invocation index `i`, and `last` the most recent error seen; it
returns the surfaced error (or `none` for success) paired with the number
of invocations performed. -/
def RetryOnError (task : Nat → Option String) :
    Nat → Nat → Option String → Option String × Nat
  | _, 0, last => (last, 0)
  | i, r + 1, _ =>
    match task i with
    | none => (none, 1)
    | some e =>
      let rest := RetryOnError task (i + 1) r (some e)
      (rest.1, rest.2 + 1)

/-! ### Idempotency Store (`CnsVolumeOperationRequest`)

The implementation is absent from the tree; present are its CRD schema
(`cns.vmware.com_cnsvolumeoperationrequests.yaml`, documenting that
`firstOperationDetails` "is never overwritten" and `latestOperationDetails`
"should have a maximum of 10 entries") and the spec. The store is modelled
from the spec. -/

/-- Task status vocabulary of an attempt: "In Progress", "Successful",
"Failed" (from the CRD's `taskStatus` documentation). -/
inductive TaskStatus
  | inProgress
  | successful
  | failed
deriving DecidableEq, Repr

/-- One attempt's details (`AttemptDetails` / the CRD's `OperationDetails`:
task id, operation id, status, error; the timestamp and vCenter endpoint
do not affect the claims and are elided). -/
structure OperationDetails where
  taskID : String
  opID : String
  taskStatus : TaskStatus
  errorMsg : String
deriving DecidableEq, Repr

/-- The cap on the `LatestOperationDetails` ring (CRD: "Should have a
maximum of 10 entries"). -/
def maxEntriesInLatestOperationDetails : Nat := 10

/-- Persisted `OperationRecord` for one instance name: the resulting
VolumeID, the first-attempt snapshot, and the bounded ring of latest
attempts (most recent last). -/
structure OperationRecord where
  volumeID : String
  firstAttempt : Option OperationDetails
  latestAttempts : List OperationDetails
deriving DecidableEq, Repr

/-- Modelled from the spec: `RecordAttempt` appends to the bounded ring of
latest attempts (evicting the oldest past the cap) and sets the
first-attempt snapshot only if unset. -/
def RecordAttempt (r : OperationRecord) (a : OperationDetails) : OperationRecord :=
  { r with
    firstAttempt :=
      match r.firstAttempt with
      | none => some a
      | some f => some f
    latestAttempts :=
      if r.latestAttempts.length < maxEntriesInLatestOperationDetails then
        r.latestAttempts ++ [a]
      else
        r.latestAttempts.tail ++ [a] }

/-- Sequential application of a sequence of `RecordAttempt` calls. -/
def recordAttempts (r : OperationRecord) (atts : List OperationDetails) : OperationRecord :=
  atts.foldl RecordAttempt r

/-- The most recent attempt of a record: the last entry of the ring
(the ring appends new attempts at the end). -/
def mostRecentAttempt (r : OperationRecord) : Option OperationDetails :=
  r.latestAttempts.getLast?

/-- Orchestrator-visible state for the idempotent execution path: the
persisted records keyed by instance name, and the number of backend
submissions performed so far. -/
structure OrchestratorState where
  records : List (String × OperationRecord)
  backendSubmissionCount : Nat
deriving DecidableEq, Repr

/-- `Load(instanceName)`: look up the persisted record. -/
def lookupRecord (st : OrchestratorState) (name : String) : Option OperationRecord :=
  (st.records.find? (fun p => decide (p.1 = name))).map Prod.snd

/-- Modelled from the spec: the backend submission path — submitting the
operation to the backend returns a fresh VolumeID and increments the
backend submission count (registration and waiting details are irrelevant
to the replay claim). -/
def submitToBackend (st : OrchestratorState) (name : String) : String × OrchestratorState :=
  (String.append "vol-" name,
    { st with backendSubmissionCount := st.backendSubmissionCount + 1 })

/-- Modelled from the spec: before submitting a new backend operation for
an instance name, the orchestrator loads any existing record; if the most
recent attempt is `Successful`, it returns the already-recorded VolumeID
instead of resubmitting; otherwise it submits to the backend. -/
def executeOperation (st : OrchestratorState) (name : String) : String × OrchestratorState :=
  match lookupRecord st name with
  | some r =>
    match mostRecentAttempt r with
    | some att =>
      if att.taskStatus = TaskStatus.successful then (r.volumeID, st)
      else submitToBackend st name
    | none => submitToBackend st name
  | none => submitToBackend st name

/-! ## Theorems -/

/-- Every Task Registry state satisfies `Count = length of GetAll`:
both are determined by the backing association list. -/
theorem count_eq_getAll_length (t : TaskMap) : t.Count = t.GetAll.length := by
  simp [TaskMap.Count, TaskMap.GetAll]

/-- Claim C1 (code evaluated at the failing configuration): the current
`Count` implementation reads the backing map without holding any lock, and
therefore admits an unsynchronized interleaving (a data race) with a
concurrent `Upsert` and with a concurrent `Delete`; by contrast the
properly locked methods (`Get`, `GetAll`, and the proposed fixed `Count`)
admit no such interleaving with the writers. This refutes the claim that
`Count` takes the registry's read lock before reading the size of the
backing map. -/
theorem c1_count_reads_map_unlocked :
    accessesAllLocked countEvents = false
    ∧ tracesRace countEvents upsertEvents = true
    ∧ tracesRace countEvents deleteEvents = true
    ∧ accessesAllLocked upsertEvents = true
    ∧ accessesAllLocked countFixedEvents = true
    ∧ tracesRace countFixedEvents upsertEvents = false
    ∧ tracesRace countFixedEvents deleteEvents = false
    ∧ tracesRace getEvents upsertEvents = false
    ∧ tracesRace getAllEvents deleteEvents = false := by
  decide

/-- Claim C2: for every finite sequence of Upsert/Delete/Get/GetAll/Count
operations applied to a fresh Task Registry, at every quiescent point the
value returned by `Count` equals the length of the snapshot returned by
`GetAll`. -/
theorem c2_count_eq_getAll_length_after_ops (ops : List TaskOp) :
    (applyTaskOps NewTaskMap ops).Count = ((applyTaskOps NewTaskMap ops).GetAll).length :=
  count_eq_getAll_length (applyTaskOps NewTaskMap ops)

/-- `TryAcquire` on a held key fails and leaves the registry unchanged. -/
theorem tryAcquire_of_mem {vl : VolumeLocks} {k : String} (h : k ∈ vl.locks) :
    vl.TryAcquire k = (false, vl) := by
  simp [VolumeLocks.TryAcquire, h]

/-- `TryAcquire` on a free key succeeds and records the key as held. -/
theorem tryAcquire_of_not_mem {vl : VolumeLocks} {k : String} (h : k ∉ vl.locks) :
    vl.TryAcquire k = (true, ⟨k :: vl.locks⟩) := by
  simp [VolumeLocks.TryAcquire, h]

/-- A held key stays held across any single operation other than a
`Release` of that key. -/
theorem mem_applyLockOp {vl : VolumeLocks} {k : String} (op : LockOp)
    (h : k ∈ vl.locks) (hop : op ≠ LockOp.release k) :
    k ∈ (applyLockOp vl op).locks := by
  cases op with
  | tryAcquire q =>
    by_cases hq : q ∈ vl.locks
    · simpa [applyLockOp, VolumeLocks.TryAcquire, hq] using h
    · simp [applyLockOp, VolumeLocks.TryAcquire, hq]
      exact Or.inr h
  | release q =>
    have hqk : k ≠ q := by
      intro hkq
      exact hop (by simp [hkq])
    simp [applyLockOp, VolumeLocks.Release, List.mem_filter, h, hqk]

/-- A held key stays held across any operation history containing no
`Release` of that key. -/
theorem mem_applyLockOps {k : String} (ops : List LockOp) :
    ∀ (vl : VolumeLocks), k ∈ vl.locks → LockOp.release k ∉ ops →
      k ∈ (applyLockOps vl ops).locks := by
  induction ops with
  | nil => intro vl h _; simpa [applyLockOps] using h
  | cons op rest ih =>
    intro vl h hno
    have hop : op ≠ LockOp.release k := by
      intro he
      exact hno (by simp [he])
    have hrest : LockOp.release k ∉ rest := by
      intro hr
      exact hno (by simp [hr])
    have hmem := mem_applyLockOp op h hop
    simpa [applyLockOps] using ih (applyLockOp vl op) hmem hrest

/-- While a key is held, repeated `TryAcquire` calls on it all return
false and do not change the registry. -/
theorem repeatTryAcquire_of_mem {vl : VolumeLocks} {k : String} (h : k ∈ vl.locks) :
    ∀ n : Nat, repeatTryAcquire vl k n = List.replicate n false := by
  intro n
  induction n with
  | zero => simp [repeatTryAcquire]
  | succ m ih =>
    simp [repeatTryAcquire, tryAcquire_of_mem h, List.replicate_succ]
    exact ih

/-- Claim C3: once a `TryAcquire(key)` has returned true, every subsequent
`TryAcquire(key)` returns false until a matching `Release(key)` (whatever
other operations are interleaved), and among any number of consecutive
`TryAcquire(key)` calls with no intervening `Release`, exactly the first
one succeeds. -/
theorem c3_tryAcquire_exclusive_until_release
    (vl : VolumeLocks) (k : String) (ops : List LockOp) (n : Nat)
    (hfree : k ∉ vl.locks) (hnorel : LockOp.release k ∉ ops) :
    (vl.TryAcquire k).1 = true
    ∧ ((applyLockOps (vl.TryAcquire k).2 ops).TryAcquire k).1 = false
    ∧ repeatTryAcquire vl k (n + 1) = true :: List.replicate n false := by
  have hacq := tryAcquire_of_not_mem hfree
  refine ⟨by simp [hacq], ?_, ?_⟩
  · have hheld : k ∈ ((vl.TryAcquire k).2).locks := by
      simp [hacq]
    have hmem := mem_applyLockOps ops ((vl.TryAcquire k).2) hheld hnorel
    simp [tryAcquire_of_mem hmem]
  · have hheld : k ∈ (VolumeLocks.mk (k :: vl.locks)).locks := by simp
    simp [repeatTryAcquire, hacq, repeatTryAcquire_of_mem hheld n]

/-- Witness for C3 at a concrete registry, key, history and repetition
count. -/
theorem c3_witness :
    (NewVolumeLocks.TryAcquire "vol-123").1 = true
    ∧ ((applyLockOps (NewVolumeLocks.TryAcquire "vol-123").2
        [LockOp.tryAcquire "vol-123", LockOp.tryAcquire "other",
          LockOp.release "other"]).TryAcquire "vol-123").1 = false
    ∧ repeatTryAcquire NewVolumeLocks "vol-123" 3 = true :: List.replicate 2 false :=
  c3_tryAcquire_exclusive_until_release NewVolumeLocks "vol-123"
    [LockOp.tryAcquire "vol-123", LockOp.tryAcquire "other", LockOp.release "other"]
    2 (by decide) (by decide)

/-- Claim C4: `Release` on a key that is not currently held is a no-op (the
registry is unchanged and, the operation being a total function, it neither
errors nor terminates the process), and `Release` of a key followed by
`TryAcquire` of that key succeeds from any registry state. -/
theorem c4_release_noop_and_reacquire
    (vl vl₂ : VolumeLocks) (k : String) (h : k ∉ vl.locks) :
    vl.Release k = vl ∧ ((vl₂.Release k).TryAcquire k).1 = true := by
  constructor
  · cases vl with
    | mk locks =>
      simp only [VolumeLocks.Release, VolumeLocks.mk.injEq]
      refine List.filter_eq_self.mpr ?_
      intro a ha
      simp only [decide_eq_true_eq]
      intro hak
      exact h (by simpa [hak] using ha)
  · have hk : k ∉ ((vl₂.Release k).locks) := by
      simp [VolumeLocks.Release, List.mem_filter]
    simp [tryAcquire_of_not_mem hk]

/-- Witness for C4 at concrete registries and key. -/
theorem c4_witness :
    (VolumeLocks.mk ["a"]).Release "k" = VolumeLocks.mk ["a"]
    ∧ (((VolumeLocks.mk ["k", "b"]).Release "k").TryAcquire "k").1 = true :=
  c4_release_noop_and_reacquire (VolumeLocks.mk ["a"]) (VolumeLocks.mk ["k", "b"])
    "k" (by decide)

/-- Claim C10: the empty string is a valid VolumeKey at the registry's
public interface, for every `VolumeLocks` registry: `TryAcquire("")`
returns true whenever `""` is free, a further `TryAcquire("")` returns
false while it is held (whether just acquired or held in any registry
state), and after `Release("")` from any state the key `""` can be
acquired again — identical to the protocol for any non-empty key. -/
theorem c10_empty_string_key (vl vlHeld vlAny : VolumeLocks)
    (hfree : "" ∉ vl.locks) (hheld : "" ∈ vlHeld.locks) :
    (vl.TryAcquire "").1 = true
    ∧ (((vl.TryAcquire "").2).TryAcquire "").1 = false
    ∧ (vlHeld.TryAcquire "").1 = false
    ∧ (((vlAny.Release "").TryAcquire "")).1 = true := by
  have hacq := tryAcquire_of_not_mem hfree
  refine ⟨by simp [hacq], ?_, by simp [tryAcquire_of_mem hheld], ?_⟩
  · have hmem : "" ∈ ((vl.TryAcquire "").2).locks := by simp [hacq]
    simp [tryAcquire_of_mem hmem]
  · have hout : "" ∉ ((vlAny.Release "").locks) := by
      simp [VolumeLocks.Release, List.mem_filter]
    simp [tryAcquire_of_not_mem hout]

/-- Witness for C10 at concrete registries: one holding other keys with
`""` free, one holding `""` among other keys, and one arbitrary state for
the release round-trip. -/
theorem c10_witness :
    ((VolumeLocks.mk ["vol-1"]).TryAcquire "").1 = true
    ∧ ((((VolumeLocks.mk ["vol-1"]).TryAcquire "").2).TryAcquire "").1 = false
    ∧ ((VolumeLocks.mk ["", "vol-2"]).TryAcquire "").1 = false
    ∧ ((((VolumeLocks.mk ["", "x"]).Release "").TryAcquire "")).1 = true :=
  c10_empty_string_key (VolumeLocks.mk ["vol-1"]) (VolumeLocks.mk ["", "vol-2"])
    (VolumeLocks.mk ["", "x"]) (by decide) (by decide)

/-- If the first `n` invocations from index `i` return `(false, nil)` and
invocation `i + n` returns a non-nil error, the driver (with more than `n`
invocations of budget) stops at that invocation with `(false, err)` after
exactly `n + 1` calls. -/
theorem expBackoff_error_terminal_aux (task : Nat → Bool × Option String) :
    ∀ (n i r : Nat) (b : Bool) (e : String),
      (∀ j, j < n → task (i + j) = (false, none)) →
      task (i + n) = (b, some e) → n < r →
      ExponentialBackoff task i r = ((false, some e), n + 1) := by
  intro n
  induction n with
  | zero =>
    intro i r b e _ hn hr
    cases r with
    | zero => exact absurd hr (by omega)
    | succ q =>
      have hi : task i = (b, some e) := by simpa using hn
      simp [ExponentialBackoff, hi]
  | succ m ih =>
    intro i r b e hpre hn hr
    cases r with
    | zero => exact absurd hr (by omega)
    | succ q =>
      have hi : task i = (false, none) := by
        have := hpre 0 (by omega)
        simpa using this
      have hpre₂ : ∀ j, j < m → task (i + 1 + j) = (false, none) := by
        intro j hj
        have := hpre (j + 1) (by omega)
        simpa [Nat.add_assoc, Nat.add_comm 1 j] using this
      have hn₂ : task (i + 1 + m) = (b, some e) := by
        simpa [Nat.add_assoc, Nat.add_comm 1 m] using hn
      have hrec := ih (i + 1) q b e hpre₂ hn₂ (by omega)
      simp [ExponentialBackoff, hi, hrec]

/-- Claim C5: for every work function, as soon as an invocation returns a
non-nil error the driver stops at that invocation and returns
`(false, err)` without consuming any remaining retries: with `n` prior
`(false, nil)` invocations it performs exactly `n + 1` calls (so a work
function that always errors is invoked exactly once, the case `n = 0`). -/
theorem c5_error_is_terminal (task : Nat → Bool × Option String)
    (n r : Nat) (b : Bool) (e : String)
    (hpre : ∀ j, j < n → task j = (false, none))
    (hn : task n = (b, some e)) (hr : n < r) :
    ExponentialBackoff task 0 r = ((false, some e), n + 1) := by
  refine expBackoff_error_terminal_aux task n 0 r b e ?_ (by simpa using hn) hr
  intro j hj
  simpa using hpre j hj

/-- Work function for the C5 witness: `(false, nil)` on the first call,
then an error. -/
def c5Task : Nat → Bool × Option String :=
  fun j => if j = 0 then (false, none) else (false, some "boom")

/-- Witness for C5: with budget 3, the driver stops at the erroring second
invocation after exactly 2 calls. -/
theorem c5_witness : ExponentialBackoff c5Task 0 3 = ((false, some "boom"), 2) :=
  c5_error_is_terminal c5Task 1 3 false "boom" (by decide) (by decide) (by decide)

/-- A work function that never finishes and never errors makes the driver
consume its whole budget and return `(false, nil)`. -/
theorem expBackoff_exhausts_budget :
    ∀ (r i : Nat), ExponentialBackoff (fun _ => (false, none)) i r = ((false, none), r) := by
  intro r
  induction r with
  | zero => intro i; simp [ExponentialBackoff]
  | succ q ih =>
    intro i
    simp [ExponentialBackoff, ih (i + 1)]

/-- Claim C6: with retry budget 5, a work function returning `(false, nil)`
on its first two invocations and `(true, nil)` on its third makes the
driver return `(true, nil)` after exactly 3 invocations; and for any retry
budget, a work function that always returns `(false, nil)` exhausts the
budget and the driver returns `(false, nil)`. -/
theorem c6_success_after_retries_and_budget_exhaustion :
    ExponentialBackoff (fun i => (decide (2 ≤ i), none)) 0 5 = ((true, none), 3)
    ∧ ∀ r : Nat, ExponentialBackoff (fun _ => (false, none)) 0 r = ((false, none), r) := by
  exact ⟨by decide, fun r => expBackoff_exhausts_budget r 0⟩

/-- If the first `n` invocations from index `i` error and invocation
`i + n` returns nil, the simple retry driver (with more than `n`
invocations of budget) returns nil after exactly `n + 1` calls, whatever
error it last carried. -/
theorem retryOnError_success_aux (task : Nat → Option String) :
    ∀ (n i r : Nat),
      (∀ j, j < n → task (i + j) ≠ none) →
      task (i + n) = none → n < r →
      ∀ last : Option String, RetryOnError task i r last = (none, n + 1) := by
  intro n
  induction n with
  | zero =>
    intro i r hpre hn hr last
    cases r with
    | zero => exact absurd hr (by omega)
    | succ q =>
      have hi : task i = none := by simpa using hn
      simp [RetryOnError, hi]
  | succ m ih =>
    intro i r hpre hn hr last
    cases r with
    | zero => exact absurd hr (by omega)
    | succ q =>
      have hi : task i ≠ none := by
        have := hpre 0 (by omega)
        simpa using this
      obtain ⟨e, he⟩ : ∃ e, task i = some e := by
        cases hv : task i with
        | none => exact absurd hv hi
        | some e => exact ⟨e, rfl⟩
      have hpre₂ : ∀ j, j < m → task (i + 1 + j) ≠ none := by
        intro j hj
        have := hpre (j + 1) (by omega)
        simpa [Nat.add_assoc, Nat.add_comm 1 j] using this
      have hn₂ : task (i + 1 + m) = none := by
        simpa [Nat.add_assoc, Nat.add_comm 1 m] using hn
      have hrec := ih (i + 1) q hpre₂ hn₂ (by omega) (some e)
      simp [RetryOnError, he, hrec]

/-- One unfolding step of the simple retry driver when the current
invocation errors (stated with a variable budget so that the recursive
call on the right stays folded). -/
theorem retryOnError_step (task : Nat → Option String) (i r : Nat)
    (last : Option String) (e : String) (he : task i = some e) :
    RetryOnError task i (r + 1) last =
      ((RetryOnError task (i + 1) r (some e)).1,
        (RetryOnError task (i + 1) r (some e)).2 + 1) := by
  simp [RetryOnError, he]

/-- If every invocation within the budget errors, the simple retry driver
consumes the whole budget and surfaces the error of the last invocation. -/
theorem retryOnError_exhaust_aux (task : Nat → Option String) :
    ∀ (r i : Nat),
      (∀ j, j < r → task (i + j) ≠ none) → 1 ≤ r →
      ∀ last : Option String, RetryOnError task i r last = (task (i + (r - 1)), r) := by
  intro r
  induction r with
  | zero =>
    intro i _ hr
    exact absurd hr (by omega)
  | succ q ih =>
    intro i hall _ last
    have hi : task i ≠ none := by
      have := hall 0 (by omega)
      simpa using this
    obtain ⟨e, he⟩ : ∃ e, task i = some e := by
      cases hv : task i with
      | none => exact absurd hv hi
      | some e => exact ⟨e, rfl⟩
    rw [retryOnError_step task i q last e he]
    cases q with
    | zero =>
      simp [RetryOnError, he]
    | succ p =>
      have hall₂ : ∀ j, j < p + 1 → task (i + 1 + j) ≠ none := by
        intro j hj
        have := hall (j + 1) (by omega)
        simpa [Nat.add_assoc, Nat.add_comm 1 j] using this
      have hrec := ih (i + 1) hall₂ (by omega) (some e)
      have harith : i + 1 + (p + 1 - 1) = i + (p + 1 + 1 - 1) := by omega
      rw [hrec, harith]

/-- Claim C7: the simple retry driver returns nil as soon as some
invocation of the work function returns nil (retrying while the error is
non-nil), and if every invocation within the retry budget returns a
non-nil error it consumes the whole budget and surfaces the last such
error. -/
theorem c7_retryOnError_semantics
    (t₁ t₂ : Nat → Option String) (n r₁ r₂ : Nat)
    (h₁pre : ∀ j, j < n → t₁ j ≠ none) (h₁n : t₁ n = none) (h₁r : n < r₁)
    (h₂all : ∀ j, j < r₂ → t₂ j ≠ none) (h₂r : 1 ≤ r₂) :
    RetryOnError t₁ 0 r₁ none = (none, n + 1)
    ∧ RetryOnError t₂ 0 r₂ none = (t₂ (r₂ - 1), r₂) := by
  constructor
  · refine retryOnError_success_aux t₁ n 0 r₁ ?_ (by simpa using h₁n) h₁r none
    intro j hj
    simpa using h₁pre j hj
  · have := retryOnError_exhaust_aux t₂ r₂ 0 (by intro j hj; simpa using h₂all j hj) h₂r none
    simpa using this

/-- Work function for the C7 witness that errors once and then succeeds. -/
def c7TaskTransient : Nat → Option String :=
  fun j => if j = 0 then some "temporary error" else none

/-- Work function for the C7 witness that always errors. -/
def c7TaskPersistent : Nat → Option String :=
  fun _ => some "persistent error"

/-- Witness for C7: the transient task succeeds on its second call within a
budget of 3; the persistent task exhausts a budget of 2 and surfaces its
last error. -/
theorem c7_witness :
    RetryOnError c7TaskTransient 0 3 none = (none, 2)
    ∧ RetryOnError c7TaskPersistent 0 2 none = (c7TaskPersistent 1, 2) :=
  c7_retryOnError_semantics c7TaskTransient c7TaskPersistent 1 3 2
    (by decide) (by decide) (by decide) (by decide) (by decide)

/-- One `RecordAttempt` keeps the ring within its cap. -/
theorem recordAttempt_length_le (r : OperationRecord) (a : OperationDetails)
    (h : r.latestAttempts.length ≤ maxEntriesInLatestOperationDetails) :
    (RecordAttempt r a).latestAttempts.length ≤ maxEntriesInLatestOperationDetails := by
  by_cases hlt : r.latestAttempts.length < maxEntriesInLatestOperationDetails
  · have hring : (RecordAttempt r a).latestAttempts = r.latestAttempts ++ [a] := by
      simp [RecordAttempt, hlt]
    rw [hring]
    simp only [List.length_append, List.length_cons, List.length_nil]
    omega
  · have hring : (RecordAttempt r a).latestAttempts = r.latestAttempts.tail ++ [a] := by
      simp [RecordAttempt, hlt]
    rw [hring]
    have htail : r.latestAttempts.tail.length = r.latestAttempts.length - 1 :=
      List.length_tail _
    simp only [List.length_append, List.length_cons, List.length_nil, htail]
    simp only [maxEntriesInLatestOperationDetails] at h hlt ⊢
    omega

/-- One `RecordAttempt` never changes an already-set first-attempt
snapshot. -/
theorem recordAttempt_firstAttempt_stable (r : OperationRecord)
    (a f : OperationDetails) (hf : r.firstAttempt = some f) :
    (RecordAttempt r a).firstAttempt = some f := by
  simp [RecordAttempt, hf]

/-- Invariant preservation over an arbitrary sequence of `RecordAttempt`
calls: the ring stays within its cap and a set first-attempt snapshot is
never changed. -/
theorem recordAttempts_invariant (atts : List OperationDetails) :
    ∀ (r : OperationRecord) (f : OperationDetails),
      r.latestAttempts.length ≤ maxEntriesInLatestOperationDetails →
      r.firstAttempt = some f →
      (recordAttempts r atts).latestAttempts.length ≤ maxEntriesInLatestOperationDetails
      ∧ (recordAttempts r atts).firstAttempt = some f := by
  induction atts with
  | nil =>
    intro r f h hf
    exact ⟨by simpa [recordAttempts] using h, by simpa [recordAttempts] using hf⟩
  | cons a rest ih =>
    intro r f h hf
    have hstep := ih (RecordAttempt r a) f
      (recordAttempt_length_le r a h)
      (recordAttempt_firstAttempt_stable r a f hf)
    simpa [recordAttempts] using hstep

/-- Claim C8: for every `OperationRecord` (with its ring within the
documented cap, as every persisted record is) and every sequence of
`RecordAttempt` calls, the `LatestAttempts` ring never exceeds 10 entries —
on overflow the oldest entry is dropped — and the `FirstAttempt` snapshot,
once set, is never changed by any subsequent `RecordAttempt`. -/
theorem c8_ring_bounded_and_firstAttempt_immutable
    (r r₂ : OperationRecord) (atts : List OperationDetails)
    (a f : OperationDetails)
    (h : r.latestAttempts.length ≤ maxEntriesInLatestOperationDetails)
    (hf : r.firstAttempt = some f)
    (h₂ : r₂.latestAttempts.length = maxEntriesInLatestOperationDetails) :
    (recordAttempts r atts).latestAttempts.length ≤ maxEntriesInLatestOperationDetails
    ∧ (recordAttempts r atts).firstAttempt = some f
    ∧ (RecordAttempt r₂ a).latestAttempts = r₂.latestAttempts.tail ++ [a] := by
  have hmain := recordAttempts_invariant atts r f h hf
  refine ⟨hmain.1, hmain.2, ?_⟩
  have hnlt : ¬ r₂.latestAttempts.length < maxEntriesInLatestOperationDetails := by
    omega
  simp [RecordAttempt, hnlt]

/-- A sample attempt for the C8 witness. -/
def c8Attempt : OperationDetails :=
  ⟨"task-0", "op-0", TaskStatus.inProgress, ""⟩

/-- A later attempt for the C8 witness. -/
def c8Attempt₂ : OperationDetails :=
  ⟨"task-9", "op-9", TaskStatus.failed, "backend fault"⟩

/-- A record whose first attempt is set, for the C8 witness. -/
def c8Record : OperationRecord :=
  ⟨"vol-1", some c8Attempt, [c8Attempt]⟩

/-- A record whose ring is full, for the C8 witness. -/
def c8FullRecord : OperationRecord :=
  ⟨"vol-2", some c8Attempt, List.replicate 10 c8Attempt⟩

/-- Witness for C8: twelve further attempts on a one-entry record leave
the ring within the cap and the first attempt untouched, and an attempt
on a full ring drops the oldest entry. -/
theorem c8_witness :
    (recordAttempts c8Record (List.replicate 12 c8Attempt₂)).latestAttempts.length
        ≤ maxEntriesInLatestOperationDetails
    ∧ (recordAttempts c8Record (List.replicate 12 c8Attempt₂)).firstAttempt = some c8Attempt
    ∧ (RecordAttempt c8FullRecord c8Attempt₂).latestAttempts
        = c8FullRecord.latestAttempts.tail ++ [c8Attempt₂] :=
  c8_ring_bounded_and_firstAttempt_immutable c8Record c8FullRecord
    (List.replicate 12 c8Attempt₂) c8Attempt₂ c8Attempt
    (by decide) (by decide) (by decide)

/-- Claim C9: when the persisted record for an instance name shows its most
recent attempt as `Successful`, executing the same logical operation again
returns the already-recorded VolumeID and performs no new backend
submission: with the backend submission count at 1 before the replay, it is
still 1 after. -/
theorem c9_successful_replay_returns_recorded_id
    (st : OrchestratorState) (name : String) (r : OperationRecord)
    (att : OperationDetails)
    (hfind : lookupRecord st name = some r)
    (hlast : mostRecentAttempt r = some att)
    (hsucc : att.taskStatus = TaskStatus.successful)
    (hcount : st.backendSubmissionCount = 1) :
    executeOperation st name = (r.volumeID, st)
    ∧ (executeOperation st name).2.backendSubmissionCount = 1 := by
  have hexec : executeOperation st name = (r.volumeID, st) := by
    simp [executeOperation, hfind, hlast, hsucc]
  exact ⟨hexec, by rw [hexec]; exact hcount⟩

/-- The successful attempt recorded for the C9 witness. -/
def c9Attempt : OperationDetails :=
  ⟨"task-42", "op-42", TaskStatus.successful, ""⟩

/-- The persisted record for the C9 witness. -/
def c9Record : OperationRecord :=
  ⟨"vol-7", some c9Attempt, [c9Attempt]⟩

/-- The orchestrator state for the C9 witness: one persisted record, one
prior backend submission. -/
def c9State : OrchestratorState :=
  ⟨[("pvc-1", c9Record)], 1⟩

/-- Witness for C9: replaying `pvc-1` returns the recorded VolumeID and
the backend submission count stays at 1. -/
theorem c9_witness :
    executeOperation c9State "pvc-1" = (c9Record.volumeID, c9State)
    ∧ (executeOperation c9State "pvc-1").2.backendSubmissionCount = 1 :=
  c9_successful_replay_returns_recorded_id c9State "pvc-1" c9Record c9Attempt
    (by decide) (by decide) (by decide) (by decide)

end VSphereCSI
